import Mathlib

/-!
Verification of the PSI (pressure stall information) monitor `monitor.c`
against its natural-language specification.

The development shallowly embeds the pieces of the program the claims are
about:

* the fixed per-domain configuration tables filled in by `populate_arrays`
  (paths, trigger thresholds, tracking windows);
* the distress-descriptor string built by `snprintf` in
  `poll_pressure_events`, and the return-value check on the `write` that
  registers it;
* the per-domain event classification and report emission performed by the
  inner `for` loop of `pressure_event_loop` (modelled as a fold over the
  fixed domain order, producing the list of emitted report lines, the
  updated `event_counter` array and an optional fatal exit code);
* the post-`poll` dispatch at the top of the wait loop (`break` on a
  cleared run flag versus the fatal poll-error exit);
* the teardown performed by `sig_handler` / `close_fds`, modelled as a
  trace of observable actions (flag store, `usleep`, `close`);
* the zero-fill-then-bounded-read of `set_content_str`, modelled on the
  byte-list level.

Machine integers never overflow in the ranges involved (all counters and
durations are small), so `Nat`/`Int` are used directly; `revents` masks are
`Nat` combined with `&&&`.
-/

set_option maxRecDepth 100000

namespace Psi

/-! ## Constants from monitor.c -/

def SZ_IDX : Nat := 3
def SZ_CONTENT : Nat := 128
def SZ_EVENT : Nat := 256
def MS_TO_US : Nat := 1000

/-- Linux `poll` priority-readiness flag, the event registered via
`fds[i].events = POLLPRI`. -/
def POLLPRI : Nat := 2

/-- Linux `poll` error flag (`POLLERR`), reported in `revents`. -/
def POLLERR : Nat := 8

def ERROR_KERNEL_UNSUPPORTED : Nat := 1
def ERROR_PRESSURE_OPEN : Nat := 2
def ERROR_PRESSURE_WRITE : Nat := 3
def ERROR_PRESSURE_POLL_FDS : Nat := 4
def ERROR_PRESSURE_FILE_GONE : Nat := 5
def ERROR_PRESSURE_EVENT_UNK : Nat := 6

/-- `pressure_file` array as filled by `populate_arrays`. -/
def pressure_file : Fin 3 → String
  | 0 => "/proc/pressure/cpu"
  | 1 => "/proc/pressure/io"
  | 2 => "/proc/pressure/memory"

/-- `delay_threshold_ms` array as filled by `populate_arrays`
(CPU 50, IO 100, MEMORY 75). -/
def delay_threshold_ms : Fin 3 → Nat
  | 0 => 50
  | 1 => 100
  | 2 => 75

/-- `tracking_window_ms` array as filled by `populate_arrays`
(CPU 500, IO 1000, MEMORY 750). -/
def tracking_window_ms : Fin 3 → Nat
  | 0 => 500
  | 1 => 1000
  | 2 => 750

/-! ## Registration (`poll_pressure_events`) -/

/-- The distress descriptor built by
`snprintf(distress_event, SZ_EVENT, "some %d %d", delay_threshold_ms[i] * MS_TO_US, tracking_window_ms[i] * MS_TO_US)`;
`snprintf` truncates its output to at most `SZ_EVENT - 1` characters. -/
def distress_event (i : Fin 3) : String :=
  ("some " ++ toString (delay_threshold_ms i * MS_TO_US) ++ " "
      ++ toString (tracking_window_ms i * MS_TO_US)).take (SZ_EVENT - 1)

/-- The byte count passed to `write`: `strlen(distress_event) + 1`
(the descriptor plus its terminating NUL). -/
def descriptor_write_len (i : Fin 3) : Nat :=
  (distress_event i).length + 1

/-- The check guarding the registration `write` in `poll_pressure_events`:
`if (write(fds[i].fd, distress_event, strlen(distress_event) + 1) < 0) exit(ERROR_PRESSURE_WRITE);`.
Given the return value of `write`, it yields the fatal exit code taken,
or `none` when registration continues. -/
def pressure_write_check (ret : Int) : Option Nat :=
  if ret < 0 then some ERROR_PRESSURE_WRITE else none

/-! ## Event classification (inner loop of `pressure_event_loop`) -/

/-- Outcome of the per-domain dispatch in the inner `for` loop. -/
inductive EventClass : Type
  | noEvent
  | fileGone
  | report
  | unrecognized
deriving DecidableEq

/-- The dispatch performed in `pressure_event_loop` for one domain, given
the registered event mask `events` (`fds[i].events`) and the signaled mask
`revents` (`fds[i].revents`):
`if (fds[i].revents == 0) continue;`
`if (fds[i].revents & POLLERR) exit(ERROR_PRESSURE_FILE_GONE);`
`if (fds[i].events) { report } else exit(ERROR_PRESSURE_EVENT_UNK);`.
Note that the third test reads the registered mask `events`, not
`revents`. -/
def classify (events revents : Nat) : EventClass :=
  if revents = 0 then .noEvent
  else if revents &&& POLLERR ≠ 0 then .fileGone
  else if events ≠ 0 then .report
  else .unrecognized

/-! ## The post-poll dispatch of the wait loop -/

/-- What the wait loop does right after `poll` returns. -/
inductive LoopStep : Type
  | exitLoop
  | fatalPoll
  | handleEvents
deriving DecidableEq

/-- The two checks at the top of the `while` body of
`pressure_event_loop`, in source order:
`if (continue_event_loop == 0) break;`
`if (n < 0) exit(ERROR_PRESSURE_POLL_FDS);`
`flag` is the value of `continue_event_loop` observed after `poll`
returns and `n` is the return value of `poll`. -/
def after_poll (flag : Bool) (n : Int) : LoopStep :=
  if flag = false then .exitLoop
  else if n < 0 then .fatalPoll
  else .handleEvents

/-! ## Reports and wake processing -/

/-- One readiness snapshot delivered by `poll`: the `revents` mask of each
of the three domains. -/
def Wake : Type := Fin 3 → Nat

/-- The `event_counter` array of `pressure_event_loop`. -/
def Counters : Type := Fin 3 → Nat

/-- `event_counter[i] = 1` for every domain, as in the initialisation loop
of `pressure_event_loop`. -/
def initCounters : Counters := fun _ => 1

/-- `event_counter[i]++` (the post-increment leaves the printed value to
the report and stores the successor). -/
def inc (c : Counters) (i : Fin 3) : Counters :=
  fun j => if j = i then c j + 1 else c j

/-- One report line `printf("%s %i %s %s\n", pressure_file[i], event_counter[i]++, time_str, content_str)`:
the domain it is about and the `event_count` value printed. -/
structure Report : Type where
  idx : Fin 3
  count : Nat
deriving DecidableEq

/-- The fixed order in which the inner `for (int i = 0; i < SZ_IDX; i++)`
loop visits the domains: CPU, IO, MEMORY. -/
def domainOrder : List (Fin 3) := [0, 1, 2]

/-- The inner `for` loop of `pressure_event_loop` over the (remaining)
domain indices: emits the list of report lines in order, threads the
`event_counter` array, and stops with a fatal exit code when the dispatch
for some domain exits the process. -/
def process_domains (w : Wake) : List (Fin 3) → Counters →
    List Report × Counters × Option Nat
  | [], cnt => ([], cnt, none)
  | i :: rest, cnt =>
    match classify POLLPRI (w i) with
    | .noEvent => process_domains w rest cnt
    | .fileGone => ([], cnt, some ERROR_PRESSURE_FILE_GONE)
    | .report =>
      let r := process_domains w rest (inc cnt i)
      (⟨i, cnt i⟩ :: r.1, r.2.1, r.2.2)
    | .unrecognized => ([], cnt, some ERROR_PRESSURE_EVENT_UNK)

/-- One full pass of the inner loop over all three domains. -/
def process_wake (w : Wake) (cnt : Counters) :
    List Report × Counters × Option Nat :=
  process_domains w domainOrder cnt

/-- Several iterations of the wait loop, one `Wake` per `poll` return:
concatenates the emitted reports and stops at the first fatal exit. -/
def run_wakes : List Wake → Counters → List Report × Counters × Option Nat
  | [], cnt => ([], cnt, none)
  | w :: ws, cnt =>
    match process_wake w cnt with
    | (reps, cnt2, some e) => (reps, cnt2, some e)
    | (reps, cnt2, none) =>
      let r := run_wakes ws cnt2
      (reps ++ r.1, r.2.1, r.2.2)

/-- Number of wakes in which domain `i` signals a nonzero `revents` mask. -/
def signalCount (ws : List Wake) (i : Fin 3) : Nat :=
  ws.countP (fun w => w i != 0)

/-! ## Shutdown (`sig_handler` / `close_fds`) -/

/-- Observable state-affecting actions of the teardown code. -/
inductive Act : Type
  | setRunFlag (b : Bool)
  | sleep (us : Nat)
  | closeFd (i : Fin 3)
  | openFd (i : Fin 3)
deriving DecidableEq

/-- The actions of `close_fds`: for each `i` in order,
`usleep(tracking_window_ms[i] * MS_TO_US)` then `close(fds[i].fd)`. -/
def close_fds_trace : List Act :=
  (List.finRange 3).flatMap fun i =>
    [Act.sleep (tracking_window_ms i * MS_TO_US), Act.closeFd i]

/-- The actions of `sig_handler`: store `continue_event_loop = 0`, then run
`close_fds()` (the handler re-installation and the prints do not touch the
run flag or the handles). -/
def sig_handler_trace : List Act :=
  Act.setRunFlag false :: close_fds_trace

/-- The close actions of a trace, in order. -/
def closesOf (tr : List Act) : List (Fin 3) :=
  tr.filterMap fun a =>
    match a with
    | .closeFd i => some i
    | _ => none

/-- The open actions of a trace, in order. -/
def opensOf (tr : List Act) : List (Fin 3) :=
  tr.filterMap fun a =>
    match a with
    | .openFd i => some i
    | _ => none

/-- How many times the trace closes handle `i`. -/
def countClose (tr : List Act) (i : Fin 3) : Nat :=
  (closesOf tr).count i

def isCloseAct : Act → Bool
  | .closeFd _ => true
  | _ => false

/-- The run-flag-clearing store appears in the trace strictly before any
close action. -/
def flagClearedBeforeAnyClose (tr : List Act) : Bool :=
  (tr.takeWhile (fun a => !isCloseAct a)).contains (Act.setRunFlag false)

/-- Every close action in the trace is immediately preceded by a sleep of
exactly the tracking window of that domain (in microseconds). -/
def closesPrecededByWindowSleep : List Act → Bool
  | [] => true
  | .sleep us :: .closeFd i :: rest =>
    (us == tracking_window_ms i * MS_TO_US) && closesPrecededByWindowSleep rest
  | .closeFd _ :: _ => false
  | _ :: rest => closesPrecededByWindowSleep rest

/-! ## Content reads (`set_content_str`) -/

/-- `memset(&content_str[0], 0, n)`: an all-zero byte buffer of length
`n`. -/
def memset_zero (n : Nat) : List Nat :=
  List.replicate n 0

/-- `read(fd, buf, n)` on a file whose remaining bytes are `content`:
copies `min content.length n` bytes to the front of `buf`, leaving the
rest of `buf` untouched. -/
def read_bytes (content buf : List Nat) (n : Nat) : List Nat :=
  content.take (min content.length n) ++ buf.drop (min content.length n)

/-- The buffer state produced by `set_content_str`: zero the 128-byte
`content_str` buffer, then read at most `SZ_CONTENT` bytes of the file
content into it. -/
def set_content_str_buf (content : List Nat) : List Nat :=
  read_bytes content (memset_zero SZ_CONTENT) SZ_CONTENT

/-! ## Helper lemmas about the dispatch -/

lemma classify_zero (e : Nat) : classify e 0 = EventClass.noEvent := by
  simp [classify]

lemma classify_pollerr (e r : Nat) (h : r &&& POLLERR ≠ 0) :
    classify e r = EventClass.fileGone := by
  have h0 : r ≠ 0 := by
    intro hr
    rw [hr] at h
    simp at h
  simp [classify, h0, h]

lemma classify_pri_report (r : Nat) (h0 : r ≠ 0) (herr : r &&& POLLERR = 0) :
    classify POLLPRI r = EventClass.report := by
  simp [classify, h0, herr, POLLPRI]

lemma mem_domainOrder (j : Fin 3) : j ∈ domainOrder := by
  fin_cases j <;> decide

/-! ## Claim theorems (first group) -/

/-- Claim C1: for every one of the three domains, the distress descriptor
string written to the pressure-file handle of that domain during
registration equals `some <threshold_ms*1000> <window_ms*1000>` exactly:
CPU `some 50000 500000`, IO `some 100000 1000000`,
memory `some 75000 750000`. -/
theorem c1_registration_descriptors :
    distress_event 0 = "some 50000 500000" ∧
    distress_event 1 = "some 100000 1000000" ∧
    distress_event 2 = "some 75000 750000" :=
  ⟨rfl, rfl, rfl⟩

/-- Claim C4 (confirmed): upon a termination request, the run flag is
stored false before any handle is closed; the three handles are closed in
the fixed order CPU, IO, MEMORY; and each close is immediately preceded by
a pause equal to the tracking window of that domain in microseconds
(CPU 500000, IO 1000000, memory 750000). -/
theorem c4_shutdown_ordering :
    flagClearedBeforeAnyClose sig_handler_trace = true ∧
    closesOf sig_handler_trace = [0, 1, 2] ∧
    closesPrecededByWindowSleep sig_handler_trace = true ∧
    (sig_handler_trace.filterMap fun a =>
        match a with
        | Act.sleep us => some us
        | _ => none)
      = [500 * MS_TO_US, 1000 * MS_TO_US, 750 * MS_TO_US] := by
  decide

/-- Claim C5 (confirmed): when the multiplexed wait returns after the run
flag has been cleared, the loop exits before the error return of the wait
can trigger the fatal multiplex-wait exit; the fatal poll exit is reached
exactly when the wait errors while the run flag is still set, so an
operator-requested termination always takes the clean loop exit. -/
theorem c5_graceful_exit_vs_poll_error :
    (∀ n : Int, after_poll false n = LoopStep.exitLoop) ∧
    (∀ (f : Bool) (n : Int),
      after_poll f n = LoopStep.fatalPoll ↔ f = true ∧ n < 0) := by
  constructor
  · intro n
    simp [after_poll]
  · intro f n
    cases f <;> by_cases h : n < 0 <;> simp [after_poll, h]

/-- Claim C9 counterexample: a short write is not fatal. The CPU
descriptor plus its NUL terminator is 18 bytes, yet when `write` returns
5 (a short write, fewer bytes than requested and not negative) the
registration check takes no exit: `pressure_write_check 5 = none`,
contradicting the claim that a short write exits with the write-failure
code. -/
theorem c9_cex_short_write_not_fatal :
    (0 : Int) ≤ 5 ∧ (5 : Int) < (descriptor_write_len 0 : Int) ∧
    pressure_write_check 5 = none := by
  decide

/-- Claim C9 amended: during registration, a write error (negative return
value of `write`) is fatal with the distinct write-failure exit code 3;
the check tests only for a negative return, so a short write is not
detected and registration continues. -/
theorem c9_amended_only_write_errors_fatal (ret : Int) :
    pressure_write_check ret = some ERROR_PRESSURE_WRITE ↔ ret < 0 := by
  by_cases h : ret < 0 <;> simp [pressure_write_check, h]

/-- Claim C10 counterexample: when the file content is 128 or more
nonzero bytes, the read fills the whole 128-byte buffer and no zero byte
remains in it, so the content string is not null-terminated inside the
buffer, contradicting the claim that the printed content string is always
null-terminated. -/
theorem c10_cex_full_read_unterminated :
    ¬ (0 ∈ set_content_str_buf (List.replicate SZ_CONTENT 65)) := by
  decide

/-- Claim C10 amended: for every content read, the destination buffer is
zeroed before the read and at most 128 bytes are read into it, so the
buffer always has exactly 128 bytes (no overrun), holds the truncated
content as its initial segment followed only by zero fill (no stale
bytes), and contains a terminating zero byte exactly when the truncated
content itself contains one or the content is shorter than 128 bytes (a
full read of 128 nonzero bytes leaves the buffer unterminated). -/
theorem c10_amended_bounded_zeroed_read (content : List Nat) :
    (set_content_str_buf content).length = SZ_CONTENT ∧
    set_content_str_buf content
      = content.take SZ_CONTENT
          ++ List.replicate (SZ_CONTENT - content.length) 0 ∧
    (0 ∈ set_content_str_buf content ↔
      0 ∈ content.take SZ_CONTENT ∨ content.length < SZ_CONTENT) := by
  have hbuf : set_content_str_buf content
      = content.take SZ_CONTENT
          ++ List.replicate (SZ_CONTENT - content.length) 0 := by
    unfold set_content_str_buf read_bytes memset_zero
    rw [List.drop_replicate]
    congr 1
    · rw [List.take_eq_take]
      omega
    · congr 1
      omega
  refine ⟨?_, hbuf, ?_⟩
  · rw [hbuf]
    simp only [List.length_append, List.length_take, List.length_replicate]
    omega
  · rw [hbuf]
    simp only [List.mem_append, List.mem_replicate]
    constructor
    · rintro (h | ⟨hm, -⟩)
      · exact Or.inl h
      · right
        omega
    · rintro (h | h)
      · exact Or.inl h
      · right
        exact ⟨by omega, trivial⟩

/-- Claim C2 counterexample: `revents = 16` (the hang-up flag `POLLHUP`)
is a signaled condition that is neither the registered priority condition
(`16 &&& POLLPRI = 0`) nor the file-gone error condition
(`16 &&& POLLERR = 0`), yet the dispatch classifies it as a report: a wake
in which the CPU domain signals only this condition emits a report line
and takes no exit, contradicting the claim that the process exits with the
unrecognized-event code 6 rather than emitting a report. -/
theorem c2_cex_pollhup_reports :
    (16 : Nat) ≠ 0 ∧ (16 : Nat) &&& POLLPRI = 0 ∧
    (16 : Nat) &&& POLLERR = 0 ∧
    classify POLLPRI 16 = EventClass.report ∧
    (process_wake (fun j => if j = 0 then 16 else 0) initCounters).2.2
      = none ∧
    (process_wake (fun j => if j = 0 then 16 else 0) initCounters).1
      = [⟨0, 1⟩] := by
  decide

/-- Claim C2 amended: the dispatch tests the registered event mask
(always the nonzero priority flag), not the signaled condition, so every
signaled condition that is not the file-gone error condition produces a
report; the unrecognized-event exit code 6 is reachable only with a zero
registered event mask and is therefore never taken after registration. -/
theorem c2_amended_unrecognized_branch_unreachable :
    (∀ revents : Nat, revents ≠ 0 → revents &&& POLLERR = 0 →
      classify POLLPRI revents = EventClass.report) ∧
    (∀ events revents : Nat,
      classify events revents = EventClass.unrecognized → events = 0) := by
  constructor
  · intro revents h0 herr
    exact classify_pri_report revents h0 herr
  · intro events revents h
    unfold classify at h
    split_ifs at h with h1 h2 h3
    omega

/-- Witness for the amended claim C2 at the concrete signaled condition
`revents = 16`. -/
theorem c2_amended_witness :
    (16 : Nat) ≠ 0 ∧ (16 : Nat) &&& POLLERR = 0 ∧
    classify POLLPRI 16 = EventClass.report :=
  ⟨by decide, by decide,
    c2_amended_unrecognized_branch_unreachable.1 16 (by decide) (by decide)⟩

/-- Claim C3 counterexample: a second termination signal delivered while
or after the shutdown drain runs re-invokes the handler, whose trace
closes every handle a second time and re-runs the whole drain: after two
handler invocations the CPU handle has been closed twice and the close
sequence is CPU, IO, MEMORY, CPU, IO, MEMORY, contradicting the claim
that no handle is closed a second time and the drain is not restarted. -/
theorem c3_cex_second_signal_recloses :
    countClose (sig_handler_trace ++ sig_handler_trace) 0 = 2 ∧
    closesOf (sig_handler_trace ++ sig_handler_trace)
      = [0, 1, 2, 0, 1, 2] := by
  decide

/-- Claim C3 amended: a second termination signal re-runs the entire
drain, closing each of the three handles exactly once more (a benign
close of an already-closed descriptor); no handle is ever reopened, and
the run flag is still cleared before any close. -/
theorem c3_amended_second_signal_reruns_drain :
    opensOf (sig_handler_trace ++ sig_handler_trace) = [] ∧
    (∀ i : Fin 3, countClose (sig_handler_trace ++ sig_handler_trace) i = 2) ∧
    flagClearedBeforeAnyClose (sig_handler_trace ++ sig_handler_trace)
      = true := by
  decide

/-! ## Inner-loop lemmas for the wake-processing claims -/

lemma process_domains_order (w : Wake) (idxs : List (Fin 3)) :
    ∀ cnt : Counters, (∀ j ∈ idxs, w j &&& POLLERR = 0) →
      (process_domains w idxs cnt).1.map Report.idx
        = idxs.filter (fun i => w i != 0) := by
  induction idxs with
  | nil =>
    intro cnt _
    simp [process_domains]
  | cons j rest ih =>
    intro cnt h
    have hj : w j &&& POLLERR = 0 := h j (List.mem_cons_self j rest)
    have hrest : ∀ k ∈ rest, w k &&& POLLERR = 0 :=
      fun k hk => h k (List.mem_cons_of_mem j hk)
    by_cases hz : w j = 0
    · have hc : classify POLLPRI (w j) = EventClass.noEvent := by
        rw [hz]
        exact classify_zero _
      simp only [process_domains, hc]
      rw [ih cnt hrest]
      simp [List.filter_cons, hz]
    · have hc : classify POLLPRI (w j) = EventClass.report :=
        classify_pri_report (w j) hz hj
      simp only [process_domains, hc]
      simp only [List.map_cons]
      rw [ih (inc cnt j) hrest]
      simp [List.filter_cons, hz]

/-- Claim C7 (confirmed): within one wake cycle in which no domain signals
the file-gone error condition, the reports emitted are exactly those of
the signaling domains, sequentially in the fixed domain order CPU, IO,
MEMORY, never interleaved or reordered. -/
theorem c7_reports_in_fixed_order (w : Wake) (cnt : Counters)
    (h : ∀ j : Fin 3, w j &&& POLLERR = 0) :
    (process_wake w cnt).1.map Report.idx
      = domainOrder.filter (fun i => w i != 0) :=
  process_domains_order w domainOrder cnt (fun j _ => h j)

/-- A wake in which CPU and MEMORY signal the priority condition and IO is
silent. -/
def wCpuMemPri : Wake := fun j => if j = 1 then 0 else POLLPRI

/-- Witness for claim C7: on a wake where CPU and MEMORY signal
simultaneously, the two reports come out in the order CPU, MEMORY. -/
theorem c7_witness :
    (∀ j : Fin 3, wCpuMemPri j &&& POLLERR = 0) ∧
    (process_wake wCpuMemPri initCounters).1.map Report.idx
      = domainOrder.filter (fun i => wCpuMemPri i != 0) :=
  ⟨by decide, c7_reports_in_fixed_order wCpuMemPri initCounters (by decide)⟩

lemma process_domains_err (w : Wake) (idxs : List (Fin 3)) :
    ∀ cnt : Counters, (∃ j ∈ idxs, w j &&& POLLERR ≠ 0) →
      (process_domains w idxs cnt).2.2 = some ERROR_PRESSURE_FILE_GONE ∧
      (process_domains w idxs cnt).1.map Report.idx
        = (idxs.takeWhile (fun i => w i &&& POLLERR == 0)).filter
            (fun i => w i != 0) := by
  induction idxs with
  | nil =>
    intro cnt h
    simp at h
  | cons j rest ih =>
    intro cnt h
    by_cases hjerr : w j &&& POLLERR ≠ 0
    · have hc : classify POLLPRI (w j) = EventClass.fileGone :=
        classify_pollerr POLLPRI (w j) hjerr
      simp only [process_domains, hc]
      refine ⟨trivial, ?_⟩
      have : (w j &&& POLLERR == 0) = false := by
        simpa using hjerr
      simp [List.takeWhile_cons, this]
    · push_neg at hjerr
      have hrest : ∃ k ∈ rest, w k &&& POLLERR ≠ 0 := by
        obtain ⟨k, hk, hkerr⟩ := h
        rcases List.mem_cons.mp hk with hkj | hk'
        · rw [hkj] at hkerr
          exact absurd hjerr hkerr
        · exact ⟨k, hk', hkerr⟩
      have htw : (w j &&& POLLERR == 0) = true := by
        simpa using hjerr
      by_cases hz : w j = 0
      · have hc : classify POLLPRI (w j) = EventClass.noEvent := by
          rw [hz]
          exact classify_zero _
        simp only [process_domains, hc]
        obtain ⟨e1, e2⟩ := ih cnt hrest
        refine ⟨e1, ?_⟩
        rw [e2]
        simp [List.takeWhile_cons, htw, List.filter_cons, hz]
      · have hc : classify POLLPRI (w j) = EventClass.report :=
          classify_pri_report (w j) hz hjerr
        simp only [process_domains, hc]
        obtain ⟨e1, e2⟩ := ih (inc cnt j) hrest
        refine ⟨e1, ?_⟩
        simp only [List.map_cons]
        rw [e2]
        simp [List.takeWhile_cons, htw, List.filter_cons, hz]

/-- Claim C8 (confirmed): if any domain signals the file-gone error
condition on a wake, the wake processing terminates with the distinct
source-disappeared exit code 5, and the only reports of that wake are
those of signaling domains strictly before the first erroring domain in
the fixed order — no further report is emitted after the termination. -/
theorem c8_file_gone_fatal (w : Wake) (cnt : Counters)
    (h : ∃ j : Fin 3, w j &&& POLLERR ≠ 0) :
    (process_wake w cnt).2.2 = some ERROR_PRESSURE_FILE_GONE ∧
    (process_wake w cnt).1.map Report.idx
      = (domainOrder.takeWhile (fun i => w i &&& POLLERR == 0)).filter
          (fun i => w i != 0) := by
  obtain ⟨j, hj⟩ := h
  exact process_domains_err w domainOrder cnt ⟨j, mem_domainOrder j, hj⟩

/-- A wake in which CPU signals the priority condition, IO signals the
error condition, and MEMORY signals the priority condition. -/
def wIoErr : Wake :=
  fun j => if j = 0 then POLLPRI else if j = 1 then POLLERR else POLLPRI

/-- Witness for claim C8: with the error on IO, processing exits with
code 5 and only the CPU report (emitted before the error was seen)
exists. -/
theorem c8_witness :
    (∃ j : Fin 3, wIoErr j &&& POLLERR ≠ 0) ∧
    (process_wake wIoErr initCounters).2.2 = some ERROR_PRESSURE_FILE_GONE ∧
    (process_wake wIoErr initCounters).1.map Report.idx
      = (domainOrder.takeWhile (fun i => wIoErr i &&& POLLERR == 0)).filter
          (fun i => wIoErr i != 0) :=
  ⟨⟨1, by decide⟩, c8_file_gone_fatal wIoErr initCounters ⟨1, by decide⟩⟩

lemma process_domains_noerr_counts (w : Wake) (i : Fin 3)
    (idxs : List (Fin 3)) :
    ∀ cnt : Counters, (∀ j ∈ idxs, w j &&& POLLERR = 0) → idxs.Nodup →
      (process_domains w idxs cnt).2.2 = none ∧
      (((process_domains w idxs cnt).1.filter
          (fun r => r.idx == i)).map Report.count
        = if i ∈ idxs ∧ w i ≠ 0 then [cnt i] else []) ∧
      (process_domains w idxs cnt).2.1 i
        = cnt i + (if i ∈ idxs ∧ w i ≠ 0 then 1 else 0) := by
  induction idxs with
  | nil =>
    intro cnt _ _
    simp [process_domains]
  | cons j rest ih =>
    intro cnt h hnd
    have hj : w j &&& POLLERR = 0 := h j (List.mem_cons_self j rest)
    have hrest : ∀ k ∈ rest, w k &&& POLLERR = 0 :=
      fun k hk => h k (List.mem_cons_of_mem j hk)
    have hjr : j ∉ rest := (List.nodup_cons.mp hnd).1
    have hndr : rest.Nodup := (List.nodup_cons.mp hnd).2
    by_cases hz : w j = 0
    · have hc : classify POLLPRI (w j) = EventClass.noEvent := by
        rw [hz]
        exact classify_zero _
      simp only [process_domains, hc]
      obtain ⟨e1, e2, e3⟩ := ih cnt hrest hndr
      have hcond : (i ∈ j :: rest ∧ w i ≠ 0) ↔ (i ∈ rest ∧ w i ≠ 0) := by
        by_cases hij : i = j
        · subst hij
          simp [hz]
        · simp [List.mem_cons, hij]
      refine ⟨e1, ?_, ?_⟩
      · rw [e2]
        by_cases hco : i ∈ rest ∧ w i ≠ 0
        · rw [if_pos hco, if_pos (hcond.mpr hco)]
        · rw [if_neg hco, if_neg (fun hx => hco (hcond.mp hx))]
      · rw [e3]
        by_cases hco : i ∈ rest ∧ w i ≠ 0
        · rw [if_pos hco, if_pos (hcond.mpr hco)]
        · rw [if_neg hco, if_neg (fun hx => hco (hcond.mp hx))]
    · have hc : classify POLLPRI (w j) = EventClass.report :=
        classify_pri_report (w j) hz hj
      simp only [process_domains, hc]
      obtain ⟨e1, e2, e3⟩ := ih (inc cnt j) hrest hndr
      by_cases hij : i = j
      · subst hij
        have hnotrest : ¬ (i ∈ rest ∧ w i ≠ 0) := fun hx => hjr hx.1
        have hinc : inc cnt i i = cnt i + 1 := by
          simp [inc]
        refine ⟨e1, ?_, ?_⟩
        · rw [List.filter_cons]
          have hp : ((⟨i, cnt i⟩ : Report).idx == i) = true := by
            simp
          rw [if_pos hp]
          rw [List.map_cons, e2, if_neg hnotrest]
          rw [if_pos ⟨List.mem_cons_self i rest, hz⟩]
        · rw [e3, if_neg hnotrest, if_pos ⟨List.mem_cons_self i rest, hz⟩,
            hinc]
      · have hinc : inc cnt j i = cnt i := by
          simp [inc, hij]
        have hcond : (i ∈ j :: rest ∧ w i ≠ 0) ↔ (i ∈ rest ∧ w i ≠ 0) := by
          simp [List.mem_cons, hij]
        refine ⟨e1, ?_, ?_⟩
        · rw [List.filter_cons]
          have hp : ((⟨j, cnt j⟩ : Report).idx == i) = false := by
            simp only [beq_eq_false_iff_ne, ne_eq]
            exact fun hh => hij hh.symm
          rw [if_neg (by rw [hp]; exact Bool.false_ne_true)]
          rw [e2, hinc]
          by_cases hco : i ∈ rest ∧ w i ≠ 0
          · rw [if_pos hco, if_pos (hcond.mpr hco)]
          · rw [if_neg hco, if_neg (fun hx => hco (hcond.mp hx))]
        · rw [e3, hinc]
          by_cases hco : i ∈ rest ∧ w i ≠ 0
          · rw [if_pos hco, if_pos (hcond.mpr hco)]
          · rw [if_neg hco, if_neg (fun hx => hco (hcond.mp hx))]

lemma process_wake_noerr (w : Wake) (cnt : Counters)
    (h : ∀ j : Fin 3, w j &&& POLLERR = 0) :
    (process_wake w cnt).2.2 = none ∧
    (∀ i : Fin 3,
      ((process_wake w cnt).1.filter (fun r => r.idx == i)).map Report.count
        = if w i ≠ 0 then [cnt i] else []) ∧
    (∀ i : Fin 3, (process_wake w cnt).2.1 i
        = cnt i + (if w i ≠ 0 then 1 else 0)) := by
  have hnd : domainOrder.Nodup := by decide
  refine ⟨?_, ?_, ?_⟩
  · exact
      (process_domains_noerr_counts w 0 domainOrder cnt (fun j _ => h j)
        hnd).1
  · intro i
    have he :=
      (process_domains_noerr_counts w i domainOrder cnt (fun j _ => h j)
        hnd).2.1
    simp only [process_wake]
    rw [he]
    simp [mem_domainOrder i]
  · intro i
    have he :=
      (process_domains_noerr_counts w i domainOrder cnt (fun j _ => h j)
        hnd).2.2
    simp only [process_wake]
    rw [he]
    simp [mem_domainOrder i]

lemma run_wakes_counts (i : Fin 3) (ws : List Wake) :
    ∀ cnt : Counters, (∀ w ∈ ws, ∀ j : Fin 3, w j &&& POLLERR = 0) →
      (run_wakes ws cnt).2.2 = none ∧
      ((run_wakes ws cnt).1.filter (fun r => r.idx == i)).map Report.count
        = List.range' (cnt i) (signalCount ws i) ∧
      (run_wakes ws cnt).2.1 i = cnt i + signalCount ws i := by
  induction ws with
  | nil =>
    intro cnt _
    simp [run_wakes, signalCount]
  | cons w ws ih =>
    intro cnt h
    have hw : ∀ j : Fin 3, w j &&& POLLERR = 0 := h w (List.mem_cons_self w ws)
    have hws : ∀ w' ∈ ws, ∀ j : Fin 3, w' j &&& POLLERR = 0 :=
      fun w' hw' => h w' (List.mem_cons_of_mem w hw')
    obtain ⟨p1, p2, p3⟩ := process_wake_noerr w cnt hw
    rcases hpw : process_wake w cnt with ⟨reps, cnt2, ex⟩
    rw [hpw] at p1 p2 p3
    simp only at p1 p2 p3
    subst p1
    obtain ⟨q1, q2, q3⟩ := ih cnt2 hws
    simp only [run_wakes, hpw]
    by_cases hz : w i = 0
    · have hc2 : cnt2 i = cnt i := by
        have hp := p3 i
        rwa [if_neg (by simp [hz]), Nat.add_zero] at hp
      have hsc : signalCount (w :: ws) i = signalCount ws i := by
        simp [signalCount, List.countP_cons, hz]
      refine ⟨q1, ?_, ?_⟩
      · rw [List.filter_append, List.map_append, p2 i,
          if_neg (by simp [hz]), q2, hc2, hsc, List.nil_append]
      · rw [q3, hc2, hsc]
    · have hc2 : cnt2 i = cnt i + 1 := by
        have hp := p3 i
        rwa [if_pos hz] at hp
      have hsc : signalCount (w :: ws) i = signalCount ws i + 1 := by
        simp [signalCount, List.countP_cons, hz]
      refine ⟨q1, ?_, ?_⟩
      · rw [List.filter_append, List.map_append, p2 i, if_pos hz, q2, hc2,
          hsc, List.range'_succ, List.singleton_append]
      · rw [q3, hc2, hsc]
        omega

/-- Claim C6 (confirmed): over any run of wakes in which no domain ever
signals the file-gone error condition, for every domain exactly one
report line is emitted per wake in which that domain signals, and the
`event_count` values printed for that domain are exactly 1, 2, 3, ... in
order: 1 on the first report and incremented by exactly 1 on each
subsequent report. -/
theorem c6_event_counts (ws : List Wake) (i : Fin 3)
    (hw : ∀ w ∈ ws, ∀ j : Fin 3, w j &&& POLLERR = 0) :
    (run_wakes ws initCounters).2.2 = none ∧
    ((run_wakes ws initCounters).1.filter
        (fun r => r.idx == i)).map Report.count
      = List.range' 1 (signalCount ws i) ∧
    (∀ (w : Wake) (cnt : Counters), (∀ j : Fin 3, w j &&& POLLERR = 0) →
      ((process_wake w cnt).1.filter (fun r => r.idx == i)).length
        = if w i ≠ 0 then 1 else 0) := by
  obtain ⟨p1, p2, _⟩ := run_wakes_counts i ws initCounters hw
  refine ⟨p1, p2, ?_⟩
  intro w cnt hw'
  have he := (process_wake_noerr w cnt hw').2.1 i
  have hlen := congrArg List.length he
  rw [List.length_map] at hlen
  rw [hlen]
  by_cases hz : w i = 0 <;> simp [hz]

/-- A wake in which all three domains signal the priority condition. -/
def wAllPri : Wake := fun _ => POLLPRI

/-- A wake in which only the CPU domain signals the priority condition. -/
def wCpuOnly : Wake := fun j => if j = 0 then POLLPRI else 0

/-- Witness for claim C6: over the run [all domains signal, only CPU
signals], the CPU reports carry the counts 1, 2. -/
theorem c6_witness :
    (∀ w ∈ [wAllPri, wCpuOnly], ∀ j : Fin 3, w j &&& POLLERR = 0) ∧
    ((run_wakes [wAllPri, wCpuOnly] initCounters).1.filter
        (fun r => r.idx == (0 : Fin 3))).map Report.count
      = List.range' 1 (signalCount [wAllPri, wCpuOnly] 0) :=
  ⟨by decide, (c6_event_counts [wAllPri, wCpuOnly] 0 (by decide)).2.1⟩

end Psi
